import Mathlib

/-!
Shallow embedding of `main.go` of Clever/log-monitor-es.

Modelling conventions:
* Go `time.Time` and `time.Duration` values are integer nanoseconds since the
  Unix epoch (`Int`); Go's monotonic-clock reading is irrelevant to the claims.
* The Go map `map[string]time.Time` is an association list `List (String × Int)`;
  the per-cycle correction loop in `main` touches each key independently
  (order-independent), so the list order is immaterial to the stated claims.
* The EC2 `DescribeInstancesPages` call is abstracted to the multiset of private
  IP addresses it would collect (`List String`) or to the error it fails with,
  i.e. a value of `Except String (List String)`.
* The per-host EC2 liveness check seen by the correction loop is an oracle
  `String → Except String Bool` recording what `ec2ip.IsRunning(ip)` returned
  for each queried address during that cycle.
* Fractional values sent to SignalFX (`float64`) are modelled as exact
  rationals `ℚ`.
-/

/-- Nanoseconds per second (`time.Second`). -/
def nsPerSecond : Int := 1000000000

/-- Nanoseconds per minute (`1 * time.Minute`), the cache TTL in `updateCache`. -/
def minuteNs : Int := 60 * nsPerSecond

/-- Nanoseconds in the scheduler period (`15 * time.Second`), `main.go` line 173. -/
def tickPeriodNs : Int := 15 * nsPerSecond

/-- Go `time.Unix(sec, 0)`: the instant `sec` seconds after the epoch, zero
nanoseconds into the second. -/
def goTimeUnixSec (sec : Int) : Int := sec * nsPerSecond

/-- Go `t.Unix()`: the (floored) number of whole seconds since the epoch. -/
def timeUnix (t : Int) : Int := Int.fdiv t nsPerSecond

/-- The timestamp conversion in `getLatestTimestamps` (`main.go` line 88):
`time.Unix(int64(*maxTime.Value)/1000, 0)`.  `m` is the store's
epoch-millisecond numeric value; Go's `/` on `int64` truncates toward zero
(`Int.tdiv`). -/
def millisToTime (m : Int) : Int := goTimeUnixSec (Int.tdiv m 1000)

/-- One bucket of the `hosts` terms-aggregation: the bucket key (hostname) and
the value of the `latestTimes` max sub-aggregation when it was found
(`main.go` lines 78-89), in epoch milliseconds. -/
structure hostBucket where
  key : String
  latestTimes : Option Int
deriving DecidableEq

/-- The bucket loop of `getLatestTimestamps` (`main.go` lines 77-91): each
bucket whose `latestTimes` sub-aggregation is found contributes one record
`results[host] = time.Unix(int64(*maxTime.Value)/1000, 0)`; buckets without it
contribute nothing. -/
def getLatestTimestamps (buckets : List hostBucket) : List (String × Int) :=
  buckets.foldl
    (fun results b =>
      match b.latestTimes with
      | some m => results ++ [(b.key, millisToTime m)]
      | none => results)
    []

/-- The configuration globals read in `init` that `sendToSignalFX` uses. -/
structure Config where
  metricName : String
  componentName : String
  environment : String

/-- A SignalFX gauge datapoint: metric name, dimensions, numeric value. -/
structure MetricPoint where
  metric : String
  dimensions : List (String × String)
  value : ℚ

/-- The dimension map built for each host in `sendToSignalFX`
(`main.go` lines 98-102). -/
def dimensionsFor (cfg : Config) (host : String) : List (String × String) :=
  [("hostname", host), ("component", cfg.componentName),
   ("environment", cfg.environment)]

/-- `sfxclient.Gauge(metricName, dimensions, timestamp.Unix())`,
`main.go` line 104. -/
def gaugePoint (cfg : Config) (host : String) (t : Int) : MetricPoint :=
  ⟨cfg.metricName, dimensionsFor cfg host, ((timeUnix t : Int) : ℚ)⟩

/-- The lag value `float64(now.Sub(timestamp))/float64(time.Second)` of
`main.go` line 105, as an exact rational. -/
def lagSeconds (now t : Int) : ℚ := ((now - t : Int) : ℚ) / ((nsPerSecond : Int) : ℚ)

/-- `sfxclient.GaugeF(metricName+"-lag", dimensions, ...)`, `main.go` line 105. -/
def lagPoint (cfg : Config) (now : Int) (host : String) (t : Int) : MetricPoint :=
  ⟨cfg.metricName ++ "-lag", dimensionsFor cfg host, lagSeconds now t⟩

/-- The batch of datapoints `sendToSignalFX` builds and hands to a single
`sfxSink.AddDatapoints` call (`main.go` lines 94-110): starting from the empty
slice, each host appends its gauge point and its lag point. -/
def sendToSignalFX (cfg : Config) (now : Int) (timestamps : List (String × Int)) :
    List MetricPoint :=
  timestamps.foldl
    (fun points ht => points ++ [gaugePoint cfg ht.1 ht.2, lagPoint cfg now ht.1 ht.2])
    []

/-- Helper: the same batch built by straightforward recursion (two points per
host, in host order).  Related to `sendToSignalFX` by `sendToSignalFX_eq_expand`
below. -/
def expandPoints (cfg : Config) (now : Int) : List (String × Int) → List MetricPoint
  | [] => []
  | ht :: rest => gaugePoint cfg ht.1 ht.2 :: lagPoint cfg now ht.1 ht.2 ::
      expandPoints cfg now rest

/-- The `ec2IPChecker` struct (`main.go` lines 112-116): last refresh time and
the cached set of private IPs of running instances; `none` models the nil map
of a freshly constructed checker. -/
structure ec2IPChecker where
  lastCheck : Int
  privateIPsRunning : Option (List String)
deriving DecidableEq

/-- Go lookup `_, ok := m[ip]` which is well-defined (and false) on a nil map. -/
def lookupRunning (m : Option (List String)) (ip : String) : Bool :=
  match m with
  | none => false
  | some ips => ips.contains ip

/-- `ec2IPChecker.updateCache` (`main.go` lines 118-145).  `now` is the
`time.Now()` read by the staleness test on line 119, `nowDone` the one stored
into `lastCheck` on line 143 after a successful query.  `query` is the outcome
of the `DescribeInstancesPages` call: the collected private IPs of running
instances, or the error it returned.  The result is the returned error (if
any), the new checker state, and the number of inventory queries issued. -/
def updateCache (e : ec2IPChecker) (now nowDone : Int)
    (query : Except String (List String)) : Option String × ec2IPChecker × Nat :=
  if e.privateIPsRunning.isSome = true ∧ now - e.lastCheck < minuteNs then
    (none, e, 0)
  else
    match query with
    | Except.error msg => (some msg, e, 1)
    | Except.ok ips => (none, ⟨nowDone, some ips⟩, 1)

/-- `ec2IPChecker.IsRunning` (`main.go` lines 147-153): refresh the cache, on
error return `(false, err)`, otherwise look the address up in the snapshot.
The result is `((running, error), new state, queries issued)`. -/
def IsRunning (e : ec2IPChecker) (now nowDone : Int)
    (query : Except String (List String)) (ip : String) :
    (Bool × Option String) × ec2IPChecker × Nat :=
  match updateCache e now nowDone query with
  | (some msg, e2, n) => ((false, some msg), e2, n)
  | (none, e2, n) => ((lookupRunning e2.privateIPsRunning ip, none), e2, n)

/-- Go `strings.TrimPrefix(s, t)`: drop `t` from the front of `s` when it is a
leading substring, else return `s` unchanged. -/
def trimPre (s t : String) : String :=
  if t.data.isPrefixOf s.data then String.mk (s.data.drop t.data.length) else s

/-- Go `strings.Replace(s, "-", ".", -1)`: replace every dash with a dot
(single-character pattern, so a character map). -/
def replaceDashesWithDots (s : String) : String :=
  String.mk (s.data.map fun c => if c = '-' then '.' else c)

/-- The address decoding of `main.go` line 184:
`strings.Replace(strings.TrimPrefix(hostname, "ip-"), "-", ".", -1)`. -/
def hostnameToIP (hostname : String) : String :=
  replaceDashesWithDots (trimPre hostname "ip-")

/-- One iteration of the correction loop in `main` (`main.go` lines 181-193)
for the entry `h = (hostname, timestamp)`: if the hostname has the `ip-`
naming pattern, consult the liveness check for the decoded address; on check
error keep the entry (the error is only logged); if the address is reported
not running overwrite the timestamp with `now` (`time.Now()` on line 190);
hostnames without the pattern are untouched. -/
def reconcileEntry (checker : String → Except String Bool) (now : Int)
    (h : String × Int) : String × Int :=
  if "ip-".data.isPrefixOf h.1.data then
    match checker (hostnameToIP h.1) with
    | Except.error _ => h
    | Except.ok running => if running then h else (h.1, now)
  else h

/-- The whole correction loop: every entry of the mapping is corrected
independently. -/
def reconcile (checker : String → Except String Bool) (now : Int)
    (timestamps : List (String × Int)) : List (String × Int) :=
  timestamps.map (reconcileEntry checker now)

/-- Fire time of the first tick of the `time.Tick(15 * time.Second)` ticker
(started at `T`) that fires strictly after time `t`: ticks fire at
`T + tickPeriodNs * k` for `k ≥ 1`. -/
def nextTickAfter (T t : Int) : Int :=
  T + tickPeriodNs * (Int.fdiv (t - T) tickPeriodNs + 1)

/-- The cycle schedule of the loop `for c := time.Tick(15 * time.Second); ; <-c`
(`main.go` lines 173-204), with the ticker created at `T`.  A cycle starting at
`s` with body duration `d` ends at `s + d`; the loop then blocks on `<-c`.  The
ticker channel buffers one tick and drops ticks while full, so the tick
received is the earliest one fired after the previous receive — which is the
time the current cycle started — and the next cycle starts at
`max (s + d) (nextTickAfter T s)`.  Given the list of body durations, returns
each cycle's `(start, end)`. -/
def runCycles (T : Int) : List Int → Int → List (Int × Int)
  | [], _ => []
  | d :: ds, s => (s, s + d) :: runCycles T ds (max (s + d) (nextTickAfter T s))

/-- The schedule of the whole loop: the first cycle runs immediately when the
loop is entered at `T`. -/
def runLoop (T : Int) (durations : List Int) : List (Int × Int) :=
  runCycles T durations T

/-- C1: for every host in the fetched mapping whose identifier matches the
`ip-` address-encoding pattern, if the inventory check succeeds and reports the
decoded address not running, the correction loop overwrites that host's
timestamp with the current time `now`, and (the input timestamp predating the
`time.Now()` read at correction time) the resulting timestamp is strictly
greater than the original input timestamp. -/
theorem reconcile_not_running_overwrites_now
    (checker : String → Except String Bool) (now : Int)
    (timestamps : List (String × Int)) (host : String) (t0 : Int)
    (hmem : (host, t0) ∈ timestamps)
    (hpat : "ip-".data.isPrefixOf host.data = true)
    (hchk : checker (hostnameToIP host) = Except.ok false)
    (hlt : t0 < now) :
    reconcileEntry checker now (host, t0) = (host, now) ∧
    (host, now) ∈ reconcile checker now timestamps ∧ t0 < now := by
  have he : reconcileEntry checker now (host, t0) = (host, now) := by
    simp [reconcileEntry, hpat, hchk]
  exact ⟨he, List.mem_map.mpr ⟨(host, t0), hmem, he⟩, hlt⟩

/-- Witness for C1 at a concrete input. -/
theorem reconcile_not_running_overwrites_now_witness :
    reconcileEntry (fun _ => Except.ok false) 5 ("ip-10-0-0-1", 1) = ("ip-10-0-0-1", 5) :=
  (reconcile_not_running_overwrites_now (fun _ => Except.ok false) 5
    [("ip-10-0-0-1", 1)] "ip-10-0-0-1" 1 (by decide) (by decide) rfl (by decide)).1

/-- C5: for every host in the mapping whose inventory check returns an error
during the correction loop, the host's entry passes through with its input
timestamp, whatever `now` is — the error is only logged. -/
theorem reconcile_check_error_passes_through
    (checker : String → Except String Bool) (now : Int)
    (timestamps : List (String × Int)) (host : String) (t0 : Int) (msg : String)
    (hmem : (host, t0) ∈ timestamps)
    (hchk : checker (hostnameToIP host) = Except.error msg) :
    reconcileEntry checker now (host, t0) = (host, t0) ∧
    (host, t0) ∈ reconcile checker now timestamps := by
  have he : reconcileEntry checker now (host, t0) = (host, t0) := by
    by_cases hpat : "ip-".data.isPrefixOf host.data
    · simp [reconcileEntry, hpat, hchk]
    · simp [reconcileEntry, hpat]
  exact ⟨he, List.mem_map.mpr ⟨(host, t0), hmem, he⟩⟩

/-- Witness for C5 at a concrete input. -/
theorem reconcile_check_error_passes_through_witness :
    reconcileEntry (fun _ => Except.error "api down") 5 ("ip-10-0-0-1", 1) =
      ("ip-10-0-0-1", 1) :=
  (reconcile_check_error_passes_through (fun _ => Except.error "api down") 5
    [("ip-10-0-0-1", 1)] "ip-10-0-0-1" 1 "api down" (by decide) rfl).1

/-- C6: every host whose identifier does not carry the `ip-` pattern passes
through the correction loop unchanged, for every liveness-check oracle (in
particular regardless of the inventory cache's contents). -/
theorem reconcile_unmatched_host_unchanged
    (checker : String → Except String Bool) (now : Int)
    (timestamps : List (String × Int)) (host : String) (t0 : Int)
    (hmem : (host, t0) ∈ timestamps)
    (hpat : "ip-".data.isPrefixOf host.data = false) :
    reconcileEntry checker now (host, t0) = (host, t0) ∧
    (host, t0) ∈ reconcile checker now timestamps := by
  have he : reconcileEntry checker now (host, t0) = (host, t0) := by
    simp [reconcileEntry, hpat]
  exact ⟨he, List.mem_map.mpr ⟨(host, t0), hmem, he⟩⟩

/-- Witness for C6 at a concrete input. -/
theorem reconcile_unmatched_host_unchanged_witness :
    reconcileEntry (fun _ => Except.ok false) 5 ("worker-3", 1) = ("worker-3", 1) :=
  (reconcile_unmatched_host_unchanged (fun _ => Except.ok false) 5
    [("worker-3", 1)] "worker-3" 1 (by decide) (by decide)).1

/-- C2 (counterexample): on the input mapping of the claim, the key
`host-10-0-0-1` does not carry the `ip-` pattern the code recognizes, so even
though the inventory cache reports `10.0.0.1` not running the correction loop
leaves its timestamp at `T0 = 0` — not "approximately the current time"
(`now` is a full hour later). -/
theorem scenario_host_key_unchanged_cex :
    reconcile (fun ip => if ip = "10.0.0.1" then Except.ok false else Except.ok true)
        (3600 * nsPerSecond) [("host-10-0-0-1", 0), ("worker-3", 0)] =
      [("host-10-0-0-1", 0), ("worker-3", 0)] ∧
    ¬((0 : Int) = 3600 * nsPerSecond) ∧ ¬((0 : Int) < 0) := by decide

/-- C2 (amended): with the pattern-carrying key `ip-10-0-0-1` in place of
`host-10-0-0-1`, the scenario holds: the inventory cache reports `10.0.0.1`
not running, the correction loop maps `ip-10-0-0-1` to the current time while
`worker-3` stays at `T1` unchanged, and the emit step is handed exactly 4
metric points. -/
theorem scenario_ip_key_corrected (cfg : Config) :
    reconcile (fun ip => if ip = "10.0.0.1" then Except.ok false else Except.ok true)
        (3600 * nsPerSecond) [("ip-10-0-0-1", 100), ("worker-3", 200)] =
      [("ip-10-0-0-1", 3600 * nsPerSecond), ("worker-3", 200)] ∧
    (sendToSignalFX cfg (3600 * nsPerSecond)
        [("ip-10-0-0-1", 3600 * nsPerSecond), ("worker-3", 200)]).length = 4 :=
  ⟨by decide, rfl⟩

/-- Helper: a single `updateCache` call issues at most one inventory query. -/
theorem updateCache_queries_le_one (e : ec2IPChecker) (now nowDone : Int)
    (query : Except String (List String)) :
    (updateCache e now nowDone query).2.2 ≤ 1 := by
  unfold updateCache
  split
  · simp
  · cases query <;> simp

/-- Helper: a single `IsRunning` call issues at most one inventory query. -/
theorem isRunning_queries_le_one (e : ec2IPChecker) (now nowDone : Int)
    (query : Except String (List String)) (ip : String) :
    (IsRunning e now nowDone query ip).2.2 ≤ 1 := by
  unfold IsRunning
  rcases hu : updateCache e now nowDone query with ⟨err, e2, n⟩
  have hn : n ≤ 1 := by
    have h := updateCache_queries_le_one e now nowDone query
    rw [hu] at h
    exact h
  cases err <;> simpa using hn

/-- Helper: with a present, fresh snapshot, `IsRunning` is a pure lookup —
no query, state unchanged, no error. -/
theorem isRunning_fresh (e : ec2IPChecker) (now nowDone : Int)
    (query : Except String (List String)) (ip : String)
    (h1 : e.privateIPsRunning.isSome = true)
    (h2 : now - e.lastCheck < minuteNs) :
    IsRunning e now nowDone query ip =
      ((lookupRunning e.privateIPsRunning ip, none), e, 0) := by
  unfold IsRunning updateCache
  rw [if_pos ⟨h1, h2⟩]

/-- Helper: when the refresh path is taken (no snapshot, or stale) and the
query succeeds, `IsRunning` looks the address up in the fresh result and the
snapshot is wholesale-replaced. -/
theorem isRunning_refresh_ok (e : ec2IPChecker) (now nowDone : Int)
    (ips : List String) (ip : String)
    (h : ¬(e.privateIPsRunning.isSome = true ∧ now - e.lastCheck < minuteNs)) :
    IsRunning e now nowDone (Except.ok ips) ip =
      ((ips.contains ip, none), ⟨nowDone, some ips⟩, 1) := by
  unfold IsRunning updateCache
  rw [if_neg h]
  rfl

/-- Helper: when the refresh path is taken and the query fails, `IsRunning`
returns `(false, err)` and the state is untouched. -/
theorem isRunning_refresh_error (e : ec2IPChecker) (now nowDone : Int)
    (msg ip : String)
    (h : ¬(e.privateIPsRunning.isSome = true ∧ now - e.lastCheck < minuteNs)) :
    IsRunning e now nowDone (Except.error msg) ip = ((false, some msg), e, 1) := by
  unfold IsRunning updateCache
  rw [if_neg h]

/-- C3: (a) with a valid snapshot within the one-minute TTL, `IsRunning` is a
pure membership test — no inventory query, state unchanged; (b) two
consecutive `IsRunning` calls whose second falls inside the TTL window of the
snapshot held after the first issue at most one inventory query in total;
(c) a call after TTL expiry issues exactly one fresh query whose result
wholesale-replaces the snapshot, so an address absent from the new result is
reported not running by a subsequent (in-TTL) lookup. -/
theorem inventoryCache_ttl_behavior
    (e : ec2IPChecker) (s ips : List String) (t1 d1 t2 d2 : Int)
    (q1 q2 : Except String (List String)) (ip1 ip2 a : String) :
    (e.privateIPsRunning = some s → t1 - e.lastCheck < minuteNs →
      IsRunning e t1 d1 q1 ip1 = ((s.contains ip1, none), e, 0)) ∧
    ((IsRunning e t1 d1 q1 ip1).2.1.privateIPsRunning.isSome = true →
      t2 - (IsRunning e t1 d1 q1 ip1).2.1.lastCheck < minuteNs →
      (IsRunning e t1 d1 q1 ip1).2.2 +
        (IsRunning (IsRunning e t1 d1 q1 ip1).2.1 t2 d2 q2 ip2).2.2 ≤ 1) ∧
    (minuteNs ≤ t1 - e.lastCheck →
      IsRunning e t1 d1 (Except.ok ips) a =
        ((ips.contains a, none), ⟨d1, some ips⟩, 1) ∧
      (ips.contains a = false → t2 - d1 < minuteNs →
        (IsRunning (⟨d1, some ips⟩ : ec2IPChecker) t2 d2 q2 a).1.1 = false)) := by
  refine ⟨?_, ?_, ?_⟩
  · intro h1 h2
    rw [isRunning_fresh e t1 d1 q1 ip1 (by rw [h1]; rfl) h2, h1]
    rfl
  · intro h1 h2
    have hsecond := isRunning_fresh (IsRunning e t1 d1 q1 ip1).2.1 t2 d2 q2 ip2 h1 h2
    have hfirst := isRunning_queries_le_one e t1 d1 q1 ip1
    rw [hsecond]
    simpa using hfirst
  · intro hstale
    have hguard : ¬(e.privateIPsRunning.isSome = true ∧ t1 - e.lastCheck < minuteNs) := by
      rintro ⟨-, hlt⟩
      omega
    refine ⟨isRunning_refresh_ok e t1 d1 ips a hguard, ?_⟩
    intro habs hfresh
    rw [isRunning_fresh (⟨d1, some ips⟩ : ec2IPChecker) t2 d2 q2 a rfl hfresh]
    simpa [lookupRunning] using habs

/-- Witness for C3 at concrete inputs: a fresh in-TTL hit (no query, state
kept) and a post-expiry refresh (one query, snapshot replaced, old address
gone). -/
theorem inventoryCache_ttl_behavior_witness :
    IsRunning ⟨0, some ["10.0.0.1"]⟩ (30 * nsPerSecond) (31 * nsPerSecond)
        (Except.ok []) "10.0.0.1" =
      (((["10.0.0.1"] : List String).contains "10.0.0.1", none),
        ⟨0, some ["10.0.0.1"]⟩, 0) ∧
    IsRunning ⟨0, some ["10.0.0.1"]⟩ (90 * nsPerSecond) (91 * nsPerSecond)
        (Except.ok ["10.0.0.2"]) "10.0.0.1" =
      (((["10.0.0.2"] : List String).contains "10.0.0.1", none),
        ⟨91 * nsPerSecond, some ["10.0.0.2"]⟩, 1) :=
  ⟨(inventoryCache_ttl_behavior ⟨0, some ["10.0.0.1"]⟩ ["10.0.0.1"] []
      (30 * nsPerSecond) (31 * nsPerSecond) 0 0 (Except.ok []) (Except.ok [])
      "10.0.0.1" "10.0.0.1" "10.0.0.1").1 rfl (by decide),
   ((inventoryCache_ttl_behavior ⟨0, some ["10.0.0.1"]⟩ [] ["10.0.0.2"]
      (90 * nsPerSecond) (91 * nsPerSecond) 0 0 (Except.ok []) (Except.ok [])
      "10.0.0.1" "10.0.0.1" "10.0.0.1").2.2 (by decide)).1⟩

/-- C4: when a cache refresh fails, `updateCache` hands the error back, and
`IsRunning` returns it to the caller; the previously held snapshot (and its
capture time) is left in place unchanged — the failure never clears or
partially updates the cached set. -/
theorem updateCache_failure_keeps_snapshot
    (e : ec2IPChecker) (now nowDone : Int) (msg ip : String)
    (hattempt : ¬(e.privateIPsRunning.isSome = true ∧ now - e.lastCheck < minuteNs)) :
    updateCache e now nowDone (Except.error msg) = (some msg, e, 1) ∧
    IsRunning e now nowDone (Except.error msg) ip = ((false, some msg), e, 1) := by
  constructor
  · unfold updateCache
    rw [if_neg hattempt]
  · exact isRunning_refresh_error e now nowDone msg ip hattempt

/-- Witness for C4 at a concrete input: stale snapshot, failing query. -/
theorem updateCache_failure_keeps_snapshot_witness :
    updateCache ⟨0, some ["10.0.0.1"]⟩ (90 * nsPerSecond) (91 * nsPerSecond)
        (Except.error "api down") = (some "api down", ⟨0, some ["10.0.0.1"]⟩, 1) ∧
    IsRunning ⟨0, some ["10.0.0.1"]⟩ (90 * nsPerSecond) (91 * nsPerSecond)
        (Except.error "api down") "10.0.0.1" =
      ((false, some "api down"), ⟨0, some ["10.0.0.1"]⟩, 1) :=
  updateCache_failure_keeps_snapshot ⟨0, some ["10.0.0.1"]⟩ (90 * nsPerSecond)
    (91 * nsPerSecond) "api down" "10.0.0.1" (by decide)

/-- C10: when the refresh inside `IsRunning` fails, the call returns the
boolean `false` together with the error even though the retained stale
snapshot contains the queried address — a caller ignoring the error component
never reads stale membership data. -/
theorem isRunning_error_returns_false
    (e : ec2IPChecker) (s : List String) (now nowDone : Int) (msg ip : String)
    (hsnap : e.privateIPsRunning = some s)
    (_hhit : s.contains ip = true)
    (hstale : minuteNs ≤ now - e.lastCheck) :
    (IsRunning e now nowDone (Except.error msg) ip).1 = (false, some msg) ∧
    (IsRunning e now nowDone (Except.error msg) ip).2.1.privateIPsRunning = some s := by
  have hguard : ¬(e.privateIPsRunning.isSome = true ∧ now - e.lastCheck < minuteNs) := by
    rintro ⟨-, hlt⟩
    omega
  rw [isRunning_refresh_error e now nowDone msg ip hguard]
  exact ⟨rfl, hsnap⟩

/-- Witness for C10 at a concrete input: the stale snapshot does contain the
address, yet the erroring call reports `(false, err)`. -/
theorem isRunning_error_returns_false_witness :
    (IsRunning ⟨0, some ["10.0.0.1"]⟩ (90 * nsPerSecond) (91 * nsPerSecond)
        (Except.error "api down") "10.0.0.1").1 = (false, some "api down") ∧
    (IsRunning ⟨0, some ["10.0.0.1"]⟩ (90 * nsPerSecond) (91 * nsPerSecond)
        (Except.error "api down") "10.0.0.1").2.1.privateIPsRunning =
      some ["10.0.0.1"] :=
  isRunning_error_returns_false ⟨0, some ["10.0.0.1"]⟩ ["10.0.0.1"]
    (90 * nsPerSecond) (91 * nsPerSecond) "api down" "10.0.0.1" rfl (by decide)
    (by decide)

/-- Helper: the `sendToSignalFX` fold, started from any accumulator, appends
the recursively built batch. -/
theorem foldl_points_eq (cfg : Config) (now : Int) :
    ∀ (ts : List (String × Int)) (acc : List MetricPoint),
      ts.foldl
        (fun points ht => points ++ [gaugePoint cfg ht.1 ht.2, lagPoint cfg now ht.1 ht.2])
        acc = acc ++ expandPoints cfg now ts := by
  intro ts
  induction ts with
  | nil => intro acc; simp [expandPoints]
  | cons ht rest ih =>
    intro acc
    rw [List.foldl_cons, ih]
    simp [expandPoints]

/-- Helper: `sendToSignalFX` equals the recursively built batch. -/
theorem sendToSignalFX_eq_expand (cfg : Config) (now : Int)
    (ts : List (String × Int)) :
    sendToSignalFX cfg now ts = expandPoints cfg now ts := by
  unfold sendToSignalFX
  simpa using foldl_points_eq cfg now ts []

/-- Helper: the batch holds two points per host. -/
theorem expandPoints_length (cfg : Config) (now : Int) :
    ∀ ts : List (String × Int), (expandPoints cfg now ts).length = 2 * ts.length := by
  intro ts
  induction ts with
  | nil => rfl
  | cons ht rest ih =>
    simp [expandPoints, ih]
    omega

/-- Helper: the `i`-th host's points sit at positions `2i` and `2i+1` of the
batch and are its gauge point and its lag point. -/
theorem expandPoints_get (cfg : Config) (now : Int) :
    ∀ (ts : List (String × Int)) (i : Nat) (ht : String × Int),
      ts.get? i = some ht →
      (expandPoints cfg now ts).get? (2 * i) = some (gaugePoint cfg ht.1 ht.2) ∧
      (expandPoints cfg now ts).get? (2 * i + 1) = some (lagPoint cfg now ht.1 ht.2) := by
  intro ts
  induction ts with
  | nil => intro i ht h; simp [List.get?] at h
  | cons hd rest ih =>
    intro i ht h
    cases i with
    | zero =>
      rw [List.get?_cons_zero] at h
      cases h
      exact ⟨rfl, rfl⟩
    | succ i =>
      rw [List.get?_cons_succ] at h
      have hrec := ih i ht h
      have h2 : 2 * (i + 1) = 2 * i + 1 + 1 := by omega
      rw [h2]
      constructor
      · rw [show (2 * i + 1 + 1 : Nat) = (2 * i) + 1 + 1 from rfl]
        rw [show expandPoints cfg now (hd :: rest) =
          gaugePoint cfg hd.1 hd.2 :: lagPoint cfg now hd.1 hd.2 ::
            expandPoints cfg now rest from rfl]
        rw [List.get?_cons_succ, List.get?_cons_succ]
        exact hrec.1
      · rw [show expandPoints cfg now (hd :: rest) =
          gaugePoint cfg hd.1 hd.2 :: lagPoint cfg now hd.1 hd.2 ::
            expandPoints cfg now rest from rfl]
        rw [show (2 * i + 1 + 1 + 1 : Nat) = (2 * i + 1) + 1 + 1 from rfl]
        rw [List.get?_cons_succ, List.get?_cons_succ]
        exact hrec.2

/-- C7: for every non-empty host→timestamp mapping, the emit step builds, in
one batch, exactly two gauge points per host: at position `2i` the host's
heartbeat timestamp as a Unix-epoch-seconds value, at position `2i+1` the lag
`(now - timestamp)` in seconds with fractional seconds preserved, each
dimensioned by hostname, the component label, and the environment label. -/
theorem sendToSignalFX_two_points_per_host (cfg : Config) (now : Int)
    (ts : List (String × Int)) (_hne : ts ≠ []) :
    (sendToSignalFX cfg now ts).length = 2 * ts.length ∧
    ∀ (i : Nat) (ht : String × Int), ts.get? i = some ht →
      (sendToSignalFX cfg now ts).get? (2 * i) =
        some ⟨cfg.metricName,
              [("hostname", ht.1), ("component", cfg.componentName),
               ("environment", cfg.environment)],
              ((Int.fdiv ht.2 nsPerSecond : Int) : ℚ)⟩ ∧
      (sendToSignalFX cfg now ts).get? (2 * i + 1) =
        some ⟨cfg.metricName ++ "-lag",
              [("hostname", ht.1), ("component", cfg.componentName),
               ("environment", cfg.environment)],
              ((now - ht.2 : Int) : ℚ) / ((nsPerSecond : Int) : ℚ)⟩ := by
  rw [sendToSignalFX_eq_expand]
  refine ⟨expandPoints_length cfg now ts, fun i ht hget => ?_⟩
  have h := expandPoints_get cfg now ts i ht hget
  simpa [gaugePoint, lagPoint, dimensionsFor, timeUnix, lagSeconds] using h

/-- Witness for C7 at a concrete input: one host yields a batch of two. -/
theorem sendToSignalFX_two_points_per_host_witness :
    ([("h", 2 * nsPerSecond)] : List (String × Int)) ≠ [] ∧
    (sendToSignalFX ⟨"m", "c", "e"⟩ (5 * nsPerSecond) [("h", 2 * nsPerSecond)]).length =
      2 * ([("h", 2 * nsPerSecond)] : List (String × Int)).length :=
  ⟨by decide,
   (sendToSignalFX_two_points_per_host ⟨"m", "c", "e"⟩ (5 * nsPerSecond)
      [("h", 2 * nsPerSecond)] (by decide)).1⟩

/-- Helper: every timestamp produced by the bucket fold is a whole number of
seconds (zero nanoseconds into its second). -/
theorem getLatestTimestamps_granularity_aux :
    ∀ (bs : List hostBucket) (acc : List (String × Int)),
      (∀ p ∈ acc, p.2 % nsPerSecond = 0) →
      ∀ p ∈ bs.foldl
        (fun results b =>
          match b.latestTimes with
          | some m => results ++ [(b.key, millisToTime m)]
          | none => results)
        acc, p.2 % nsPerSecond = 0 := by
  intro bs
  induction bs with
  | nil => intro acc hacc p hp; exact hacc p hp
  | cons b bs ih =>
    intro acc hacc p hp
    rw [List.foldl_cons] at hp
    refine ih _ ?_ p hp
    cases hb : b.latestTimes with
    | none => simpa [hb] using hacc
    | some m =>
      intro q hq
      rcases List.mem_append.mp hq with hq | hq
      · exact hacc q hq
      · rcases List.mem_singleton.mp hq with rfl
        show millisToTime m % nsPerSecond = 0
        unfold millisToTime goTimeUnixSec
        exact Int.mul_emod_left _ _

/-- C8 (counterexample): at the millisecond value `m = -1500` the conversion
`time.Unix(int64(m)/1000, 0)` truncates toward zero and yields `-1` seconds,
while `floor(-1500/1000) = -2`; the record therefore does not hold
`floor(m/1000)` seconds for every millisecond value. -/
theorem millis_conversion_negative_cex :
    millisToTime (-1500) = (-1) * nsPerSecond ∧
    Int.fdiv (-1500) 1000 = -2 ∧
    millisToTime (-1500) ≠ goTimeUnixSec (Int.fdiv (-1500) 1000) := by decide

/-- C8 (amended): every timestamp the fetcher returns lies on a whole second
(zero nanoseconds), and for every non-negative millisecond value `m` the
conversion holds exactly `floor(m/1000)` seconds; for negative `m` Go's
truncating division rounds toward zero instead of flooring. -/
theorem millis_conversion_nonneg_floor
    (buckets : List hostBucket) (host : String) (t m : Int)
    (hmem : (host, t) ∈ getLatestTimestamps buckets) (hm : 0 ≤ m) :
    t % nsPerSecond = 0 ∧
    millisToTime m = goTimeUnixSec (Int.fdiv m 1000) ∧
    millisToTime m % nsPerSecond = 0 := by
  refine ⟨?_, ?_, ?_⟩
  · exact getLatestTimestamps_granularity_aux buckets [] (by simp) (host, t) hmem
  · unfold millisToTime
    rw [Int.tdiv_eq_ediv hm (by decide), Int.fdiv_eq_ediv _ (by decide)]
  · unfold millisToTime goTimeUnixSec
    exact Int.mul_emod_left _ _

/-- Witness for C8 (amended) at a concrete input: a bucket at 2500 ms maps to
2 whole seconds. -/
theorem millis_conversion_nonneg_floor_witness :
    ((2 * nsPerSecond : Int) % nsPerSecond = 0) ∧
    millisToTime 2500 = goTimeUnixSec (Int.fdiv 2500 1000) ∧
    millisToTime 2500 % nsPerSecond = 0 :=
  millis_conversion_nonneg_floor [⟨"h", some 2500⟩] "h" (2 * nsPerSecond) 2500
    (by decide) (by decide)

/-- Helper: the next tick of the fixed-rate ticker fires no more than one full
period after any reference time. -/
theorem nextTickAfter_le (T t : Int) : nextTickAfter T t ≤ t + tickPeriodNs := by
  unfold nextTickAfter
  rw [Int.fdiv_eq_ediv _ (by decide : (0 : Int) ≤ tickPeriodNs)]
  have h1 := Int.ediv_add_emod (t - T) tickPeriodNs
  have h2 := Int.emod_nonneg (t - T) (by decide : tickPeriodNs ≠ 0)
  rw [mul_add, mul_one]
  linarith

/-- Helper: adjacent cycles of the loop schedule satisfy the sequencing
relation, for any start time of the recursion. -/
theorem runCycles_chain_aux (T : Int) :
    ∀ (ds : List Int) (s : Int), (∀ d ∈ ds, 0 ≤ d) →
      List.Chain' (fun p q : Int × Int =>
        p.2 ≤ q.1 ∧ q.1 = max p.2 (nextTickAfter T p.1) ∧ q.1 - p.2 ≤ tickPeriodNs)
        (runCycles T ds s) := by
  intro ds
  induction ds with
  | nil => intro s _; simp [runCycles]
  | cons d ds ih =>
    intro s hd
    cases ds with
    | nil => simp [runCycles]
    | cons d2 ds2 =>
      have hrest := ih (max (s + d) (nextTickAfter T s))
        (fun x hx => hd x (List.mem_cons_of_mem d hx))
      simp only [runCycles] at hrest ⊢
      refine List.chain'_cons.mpr ⟨⟨le_max_left _ _, rfl, ?_⟩, hrest⟩
      have hd0 : 0 ≤ d := hd d (List.mem_cons_self d _)
      have hle := nextTickAfter_le T s
      have hp : (0 : Int) ≤ tickPeriodNs := by decide
      have hmax : max (s + d) (nextTickAfter T s) ≤ s + d + tickPeriodNs :=
        max_le (by linarith) (by linarith)
      show max (s + d) (nextTickAfter T s) - (s + d) ≤ tickPeriodNs
      linarith

/-- C9 (counterexample): the loop waits on a fixed-rate `time.Tick` channel,
not on a delay measured from the end of the cycle: with the ticker started at
0 and a first cycle lasting 20 s, the first tick (at 15 s) is already buffered
when the cycle ends, so the second cycle starts immediately at 20 s — the gap
between the end of one cycle and the start of the next is 0, not a full 15 s. -/
theorem scheduler_tick_slow_cycle_cex :
    runLoop 0 [20 * nsPerSecond, 0] =
      [(0, 20 * nsPerSecond), (20 * nsPerSecond, 20 * nsPerSecond)] ∧
    ¬(tickPeriodNs ≤ 20 * nsPerSecond - 20 * nsPerSecond) := by decide

/-- C9 (amended): consecutive cycles never overlap — each cycle starts no
earlier than the previous cycle's end, namely at the later of that end and the
next undelivered tick of the fixed-rate 15-second ticker — and (for
non-negative cycle durations) the idle gap between cycles is at most one
15-second period, possibly less, rather than always a full 15 seconds. -/
theorem scheduler_tick_sequencing (T : Int) (ds : List Int)
    (hd : ∀ d ∈ ds, 0 ≤ d) :
    List.Chain' (fun p q : Int × Int =>
      p.2 ≤ q.1 ∧ q.1 = max p.2 (nextTickAfter T p.1) ∧ q.1 - p.2 ≤ tickPeriodNs)
      (runLoop T ds) :=
  runCycles_chain_aux T ds T hd

/-- Witness for C9 (amended) at a concrete input: a 10-second cycle followed
by an instantaneous one. -/
theorem scheduler_tick_sequencing_witness :
    List.Chain' (fun p q : Int × Int =>
      p.2 ≤ q.1 ∧ q.1 = max p.2 (nextTickAfter 0 p.1) ∧ q.1 - p.2 ≤ tickPeriodNs)
      (runLoop 0 [10 * nsPerSecond, 0]) :=
  scheduler_tick_sequencing 0 [10 * nsPerSecond, 0] (by decide)
